import Mathlib

/-!
# Verification of the HRMS backend query/aggregation core

Shallow embedding of the employee/attendance service layer
(`app/services/employee_service.py`, `app/services/attendance_service.py`)
and the route-level guard logic (`app/api/routes.py`) of the hrms-backend
repository, together with theorems settling the spec claims.

Modelling conventions:
 * Database rows become Lean structures; the two tables become lists inside
   an `HState` value, together with the autoincrement counters.
 * Calendar dates are encoded as natural numbers in `YYYYMMDD` form; Python
   `date` comparison on valid ISO dates agrees with numeric order on this
   encoding.  A Python `date` object is always truthy, so `if filter_date:`
   on a `date | None` value tests only for `None` (i.e. `Option.isSome`).
 * Python integers are `Int`; `if n:` on an `int | None` is true exactly when
   the value is present and non-zero (`optIntTruthy` below).
 * `result.scalar_one_or_none() is not None` is embedded as non-emptiness of
   the filtered row list.  The real call raises when two rows match, which
   cannot happen for the queries below when the database constraints hold
   (`UniqueConstraint("employee_id", "date")` on attendance, `unique=True` on
   `Employee.employee_id` / `Employee.email`, primary keys); theorems that
   rely on this quantify over states satisfying those constraints.
 * SQL `ORDER BY ... DESC` becomes an insertion sort on the already-filtered
   rows; `GROUP BY` becomes key deduplication plus per-key counting.
 * `created_at` timestamps (wall-clock defaults) play no part in any claim
   and are omitted from the row structures; `date.today()` inside
   `get_attendance_summary` becomes an explicit `today` parameter.
-/

/-- Row of the `employees_employee` table (`app/models/employee.py`). -/
structure Employee where
  id : Int
  employee_id : String
  full_name : String
  email : String
  department : String
deriving Repr, DecidableEq

/-- Row of the `attendance_attendance` table (`app/models/attendance.py`).
`employee_id` is the foreign key to `Employee.id`; `status` is the raw
stored string (`"present"` or `"absent"` for validated input). -/
structure Attendance where
  id : Int
  employee_id : Int
  date : Nat
  status : String
deriving Repr, DecidableEq

/-- The database state: both tables plus the autoincrement counters used
when inserting new rows. -/
structure HState where
  employees : List Employee
  attendances : List Attendance
  next_employee_pk : Int
  next_attendance_pk : Int
deriving Repr

/-- Python truthiness of an `int | None` value: `if x:` is taken when `x`
is present and non-zero. -/
def optIntTruthy : Option Int → Bool
  | none => false
  | some n => n != 0

/-- Insert `a` in front of the first element whose key is smaller, keeping
the list sorted by `f` descending (models `ORDER BY f DESC`). -/
def insertDescBy (f : α → Nat) (a : α) : List α → List α
  | [] => [a]
  | b :: bs => if f b < f a then a :: b :: bs else b :: insertDescBy f a bs

/-- Sort a list by `f` descending (models `ORDER BY f DESC`; relative order
of equal keys is unspecified by SQL, this picks one concrete order). -/
def sortDescBy (f : α → Nat) : List α → List α
  | [] => []
  | a :: as => insertDescBy f a (sortDescBy f as)

/-! ## Employee service (`app/services/employee_service.py`) -/

/-- `get_employee_by_id`: point lookup by primary key (`db.get`). -/
def get_employee_by_id (st : HState) (employee_pk : Int) : Option Employee :=
  st.employees.find? (fun e => e.id == employee_pk)

/-- `check_employee_id_exists`: some employee row has this employee code. -/
def check_employee_id_exists (st : HState) (emp_id : String) : Bool :=
  !(st.employees.filter (fun e => e.employee_id == emp_id)).isEmpty

/-- `check_email_exists`: some employee row has this email, optionally
excluding one primary key (`if exclude_pk:` is Python truthiness). -/
def check_email_exists (st : HState) (email : String) (exclude_pk : Option Int) : Bool :=
  let rows := st.employees.filter (fun e => e.email == email)
  let rows :=
    if optIntTruthy exclude_pk then
      rows.filter (fun e => e.id != exclude_pk.getD 0)
    else rows
  !rows.isEmpty

/-- Python `str.lower()` (ASCII case folding, which covers every string
the claims touch). -/
def pyLower (s : String) : String := ⟨s.data.map Char.toLower⟩

/-- Python `str.strip()`: drop leading and trailing whitespace. -/
def pyStrip (s : String) : String :=
  ⟨((s.data.dropWhile Char.isWhitespace).reverse.dropWhile Char.isWhitespace).reverse⟩

/-- Validated employee-creation payload (`app/schemas/employee.py`,
fields before validator normalization). -/
structure EmployeeCreate where
  employee_id : String
  full_name : String
  email : String
  department : String
deriving Repr, DecidableEq

/-- The `EmployeeCreate` pydantic validators: `strip_whitespace` on
`employee_id`, `full_name`, `department` and `normalize_email`
(`v.strip().lower()`) on `email`. -/
def validateEmployeeCreate (p : EmployeeCreate) : EmployeeCreate :=
  { employee_id := pyStrip p.employee_id
    full_name := pyStrip p.full_name
    email := pyLower (pyStrip p.email)
    department := pyStrip p.department }

/-- `create_employee`: insert a new row, primary key from autoincrement. -/
def create_employee (st : HState) (data : EmployeeCreate) : Employee × HState :=
  let e : Employee :=
    { id := st.next_employee_pk
      employee_id := data.employee_id
      full_name := data.full_name
      email := data.email
      department := data.department }
  (e, { st with employees := st.employees ++ [e]
                next_employee_pk := st.next_employee_pk + 1 })

/-- `delete_employee`: delete the employee row; the `cascade` on
`Employee.attendances` (and `ondelete="CASCADE"` on the foreign key)
deletes every attendance row referencing it. -/
def delete_employee (st : HState) (employee : Employee) : HState :=
  { st with
    employees := st.employees.filter (fun e => e.id != employee.id)
    attendances := st.attendances.filter (fun a => a.employee_id != employee.id) }

/-! ## Attendance service (`app/services/attendance_service.py`) -/

/-- `get_attendance_list`: optional employee / date filters, newest date
first.  `if employee_id:` is Python truthiness on an `int | None`;
`if filter_date:` only tests for `None` since `date` objects are truthy. -/
def get_attendance_list (st : HState) (employee_id : Option Int)
    (filter_date : Option Nat) : List Attendance :=
  let rows := st.attendances
  let rows :=
    if optIntTruthy employee_id then
      rows.filter (fun a => a.employee_id == employee_id.getD 0)
    else rows
  let rows :=
    match filter_date with
    | some d => rows.filter (fun a => a.date == d)
    | none => rows
  sortDescBy (fun a => a.date) rows

/-- `check_attendance_exists`: a row with this (employee, date) exists,
optionally excluding one primary key (`if exclude_pk:` is Python
truthiness, so `exclude_pk = 0` applies no exclusion). -/
def check_attendance_exists (st : HState) (emp_id : Int) (att_date : Nat)
    (exclude_pk : Option Int) : Bool :=
  let rows := st.attendances.filter
    (fun a => a.employee_id == emp_id && a.date == att_date)
  let rows :=
    if optIntTruthy exclude_pk then
      rows.filter (fun a => a.id != exclude_pk.getD 0)
    else rows
  !rows.isEmpty

/-- Validated attendance-creation payload (`app/schemas/attendance.py`);
the `validate_status` validator guarantees `status` is `"present"` or
`"absent"` for payloads that reach the route body. -/
structure AttendanceCreate where
  employee : Int
  date : Nat
  status : String
deriving Repr, DecidableEq

/-- `create_attendance`: insert a new row, primary key from autoincrement. -/
def create_attendance (st : HState) (data : AttendanceCreate) : Attendance × HState :=
  let a : Attendance :=
    { id := st.next_attendance_pk
      employee_id := data.employee
      date := data.date
      status := data.status }
  (a, { st with attendances := st.attendances ++ [a]
                next_attendance_pk := st.next_attendance_pk + 1 })

/-- `get_attendance_by_employee`: one employee's rows with optional
inclusive date bounds, newest date first (`if date_from:` / `if date_to:`
only test for `None` since `date` objects are truthy). -/
def get_attendance_by_employee (st : HState) (employee_pk : Int)
    (date_from : Option Nat) (date_to : Option Nat) : List Attendance :=
  let rows := st.attendances.filter (fun a => a.employee_id == employee_pk)
  let rows :=
    match date_from with
    | some d => rows.filter (fun a => d ≤ a.date)
    | none => rows
  let rows :=
    match date_to with
    | some d => rows.filter (fun a => a.date ≤ d)
    | none => rows
  sortDescBy (fun a => a.date) rows

/-- One entry of `present_days_by_employee` in the summary payload. -/
structure PresentDays where
  employee_id : Int
  present_days : Nat
deriving Repr, DecidableEq

/-- The dashboard summary payload returned by `get_attendance_summary`. -/
structure Summary where
  total_employees : Nat
  present_today : Nat
  absent_today : Nat
  present_days_by_employee : List PresentDays
deriving Repr, DecidableEq

/-- `get_attendance_summary`: the four aggregate queries.  `date.today()`
is the explicit `today` parameter; `SELECT employee_id, count(id) ...
GROUP BY employee_id ORDER BY count(id) DESC` over the present rows becomes
key deduplication, per-key counting, and a descending sort on the count. -/
def get_attendance_summary (st : HState) (today : Nat) : Summary :=
  let total_employees := st.employees.length
  let present_today :=
    (st.attendances.filter (fun a => a.date == today && a.status == "present")).length
  let absent_today :=
    (st.attendances.filter (fun a => a.date == today && a.status == "absent")).length
  let present := st.attendances.filter (fun a => a.status == "present")
  let keys := (present.map (fun a => a.employee_id)).dedup
  let pairs := keys.map (fun k =>
    PresentDays.mk k ((present.filter (fun a => a.employee_id == k)).length))
  { total_employees := total_employees
    present_today := present_today
    absent_today := absent_today
    present_days_by_employee := sortDescBy (fun p => p.present_days) pairs }

/-- `delete_attendance`: delete one attendance row. -/
def delete_attendance (st : HState) (attendance : Attendance) : HState :=
  { st with attendances := st.attendances.filter (fun a => a.id != attendance.id) }

/-! ## Route-level guard logic (`app/api/routes.py`) -/

/-- The two field-scoped conflict errors the `POST /api/employees/` handler
can report in its `errors` dict. -/
structure EmployeeErrors where
  employee_id_taken : Bool
  email_taken : Bool
deriving Repr, DecidableEq

/-- Outcome of the `POST /api/employees/` handler. -/
inductive CreateEmployeeResult where
  | ok (e : Employee)
  | conflict (errs : EmployeeErrors)
deriving Repr, DecidableEq

/-- `create_employee` route handler: validate payload (pydantic runs the
validators before the body), collect uniqueness errors, insert on success. -/
def create_employee_route (st : HState) (raw : EmployeeCreate) :
    CreateEmployeeResult × HState :=
  let payload := validateEmployeeCreate raw
  let errs : EmployeeErrors :=
    { employee_id_taken := check_employee_id_exists st payload.employee_id
      email_taken := check_email_exists st payload.email none }
  if errs.employee_id_taken || errs.email_taken then
    (CreateEmployeeResult.conflict errs, st)
  else
    let (e, st') := create_employee st payload
    (CreateEmployeeResult.ok e, st')

/-- Error kinds of the `POST /api/attendance/` handler:
`employeeNotFound` is the `{"employee": ["Employee not found."]}` rejection,
`duplicate` the `non_field_errors` duplicate-attendance rejection. -/
inductive AttendanceError where
  | employeeNotFound
  | duplicate
deriving Repr, DecidableEq

/-- `create_attendance` route handler: employee-existence guard, then
duplicate guard (`exclude_pk` defaulted to `None`), then insert. -/
def create_attendance_route (st : HState) (payload : AttendanceCreate) :
    Except AttendanceError Attendance × HState :=
  match get_employee_by_id st payload.employee with
  | none => (Except.error AttendanceError.employeeNotFound, st)
  | some _ =>
    if check_attendance_exists st payload.employee payload.date none then
      (Except.error AttendanceError.duplicate, st)
    else
      let (a, st') := create_attendance st payload
      (Except.ok a, st')

/-- `delete_employee` route handler: 404 when the primary key is unknown,
otherwise delete with cascade. -/
def delete_employee_route (st : HState) (employee_pk : Int) :
    Except Unit Unit × HState :=
  match get_employee_by_id st employee_pk with
  | none => (Except.error (), st)
  | some employee => (Except.ok (), delete_employee st employee)

/-! ## Database-enforced invariants

These predicates transcribe the schema constraints the relational store
enforces (`app/models/employee.py`, `app/models/attendance.py`): they are
the states the queries above can actually observe, and they are what makes
`scalar_one_or_none` / `db.get` total on the code's query shapes. -/

/-- Foreign-key integrity: every attendance row references an existing
employee (`ForeignKey("employees_employee.id")`, `nullable=False`). -/
def fkIntegrity (st : HState) : Prop :=
  ∀ a ∈ st.attendances, ∃ e ∈ st.employees, e.id = a.employee_id

/-- `UniqueConstraint("employee_id", "date", name="unique_employee_date")`:
no two distinct attendance rows share an (employee, date) pair. -/
def attendancePairUnique (st : HState) : Prop :=
  ∀ a ∈ st.attendances, ∀ b ∈ st.attendances,
    a.employee_id = b.employee_id → a.date = b.date → a = b

/-- Employee primary keys are unique. -/
def employeePKUnique (st : HState) : Prop :=
  ∀ e ∈ st.employees, ∀ f ∈ st.employees, e.id = f.id → e = f

/-- `Employee.employee_id` and `Employee.email` are unique columns, and
every stored email is in its case-normalized (trimmed, lower-cased) form —
the route stores only validator-normalized emails. -/
def employeeColumnsUnique (st : HState) : Prop :=
  (∀ e ∈ st.employees, ∀ f ∈ st.employees, e.employee_id = f.employee_id → e = f) ∧
  (∀ e ∈ st.employees, ∀ f ∈ st.employees, e.email = f.email → e = f) ∧
  (∀ e ∈ st.employees, pyLower (pyStrip e.email) = e.email)

/-! ## Helper lemmas about the sort and query building blocks -/

/-- A list with a member is non-empty in the `Bool` sense. -/
theorem not_isEmpty_of_mem {α : Type} {l : List α} {x : α} (h : x ∈ l) :
    (!l.isEmpty) = true := by
  cases l with
  | nil => cases h
  | cons a as => rfl

/-- Membership is preserved by `insertDescBy`. -/
theorem mem_insertDescBy {α : Type} (f : α → Nat) (a x : α) (l : List α) :
    x ∈ insertDescBy f a l ↔ x = a ∨ x ∈ l := by
  induction l with
  | nil => simp [insertDescBy]
  | cons b bs ih =>
    simp only [insertDescBy]
    split
    · simp
    · simp only [List.mem_cons, ih]
      tauto

/-- `insertDescBy` produces a permutation of consing. -/
theorem insertDescBy_perm {α : Type} (f : α → Nat) (a : α) (l : List α) :
    List.Perm (insertDescBy f a l) (a :: l) := by
  induction l with
  | nil => simp [insertDescBy]
  | cons b bs ih =>
    simp only [insertDescBy]
    split
    · exact List.Perm.refl _
    · exact (ih.cons b).trans (List.Perm.swap a b bs)

/-- `sortDescBy` permutes its input. -/
theorem sortDescBy_perm {α : Type} (f : α → Nat) (l : List α) :
    List.Perm (sortDescBy f l) l := by
  induction l with
  | nil => exact List.Perm.refl _
  | cons a as ih => exact (insertDescBy_perm f a _).trans (ih.cons a)

/-- Membership is preserved by `sortDescBy`. -/
theorem mem_sortDescBy {α : Type} (f : α → Nat) (x : α) (l : List α) :
    x ∈ sortDescBy f l ↔ x ∈ l :=
  (sortDescBy_perm f l).mem_iff

/-- `insertDescBy` keeps a descending list descending. -/
theorem insertDescBy_pairwise {α : Type} (f : α → Nat) (a : α) (l : List α)
    (h : List.Pairwise (fun x y => f y ≤ f x) l) :
    List.Pairwise (fun x y => f y ≤ f x) (insertDescBy f a l) := by
  induction l with
  | nil => simp [insertDescBy]
  | cons b bs ih =>
    obtain ⟨hb, hbs⟩ := List.pairwise_cons.mp h
    simp only [insertDescBy]
    split
    · rename_i hlt
      refine List.pairwise_cons.mpr ⟨?_, h⟩
      intro x hx
      rcases List.mem_cons.mp hx with rfl | hx
      · exact Nat.le_of_lt hlt
      · exact Nat.le_trans (hb x hx) (Nat.le_of_lt hlt)
    · rename_i hge
      refine List.pairwise_cons.mpr ⟨?_, ih hbs⟩
      intro x hx
      rcases (mem_insertDescBy f a x bs).mp hx with rfl | hx
      · exact Nat.le_of_not_lt hge
      · exact hb x hx

/-- `sortDescBy` output is sorted descending on the key. -/
theorem sortDescBy_pairwise {α : Type} (f : α → Nat) (l : List α) :
    List.Pairwise (fun x y => f y ≤ f x) (sortDescBy f l) := by
  induction l with
  | nil => simp [sortDescBy]
  | cons a as ih => exact insertDescBy_pairwise f a _ ih

/-- Rows are sorted newest date first. -/
def dateSortedDesc (l : List Attendance) : Prop :=
  List.Pairwise (fun a b => b.date ≤ a.date) l

/-! ## Example data (used by witnesses and scenario claims)

Employee A (code "E100") marked present on 2024-01-01 and absent on
2024-01-02; employee B (code "E200") marked present on 2024-01-01 — the
scenario data of spec §8. -/

def empA : Employee :=
  { id := 1, employee_id := "E100", full_name := "Alice"
    email := "alice@example.com", department := "Eng" }

def empB : Employee :=
  { id := 2, employee_id := "E200", full_name := "Bob"
    email := "bob@example.com", department := "Eng" }

def attA1 : Attendance := { id := 1, employee_id := 1, date := 20240101, status := "present" }

def attA2 : Attendance := { id := 2, employee_id := 1, date := 20240102, status := "absent" }

def attB1 : Attendance := { id := 3, employee_id := 2, date := 20240101, status := "present" }

def hrState : HState :=
  { employees := [empA, empB], attendances := [attA1, attA2, attB1]
    next_employee_pk := 3, next_attendance_pk := 4 }

/-! ## Claims -/

/-- C1: For every state containing an attendance record for a given
(employee, date) pair, the create-attendance operation invoked with that
same employee and date fails with the duplicate Conflict error and leaves
the state — in particular the attendance table — unchanged.  The state is
quantified over the database-enforced constraints (foreign-key integrity
and the (employee, date) unique constraint), which is what makes the
embedded existence checks agree with the `scalar_one_or_none` calls. -/
theorem create_attendance_duplicate_conflict (st : HState) (a : Attendance)
    (status : String) (hfk : fkIntegrity st) (_hpair : attendancePairUnique st)
    (ha : a ∈ st.attendances) :
    create_attendance_route st ⟨a.employee_id, a.date, status⟩ =
      (Except.error AttendanceError.duplicate, st) := by
  obtain ⟨e, he, heq⟩ := hfk a ha
  have hsome : (st.employees.find? (fun f => f.id == a.employee_id)).isSome := by
    rw [List.find?_isSome]
    exact ⟨e, he, by simp [heq]⟩
  obtain ⟨emp, hemp⟩ := Option.isSome_iff_exists.mp hsome
  have hmem : a ∈ st.attendances.filter
      (fun b => b.employee_id == a.employee_id && b.date == a.date) :=
    List.mem_filter.mpr ⟨ha, by simp⟩
  have hdup : check_attendance_exists st a.employee_id a.date none = true := by
    simpa [check_attendance_exists, optIntTruthy] using not_isEmpty_of_mem hmem
  simp [create_attendance_route, get_employee_by_id, hemp, hdup]

/-- Witness for C1: duplicating employee A's 2024-01-01 record on the
scenario state is rejected as a duplicate. -/
theorem create_attendance_duplicate_conflict_witness :
    (fkIntegrity hrState ∧ attendancePairUnique hrState ∧ attA1 ∈ hrState.attendances) ∧
    create_attendance_route hrState ⟨attA1.employee_id, attA1.date, "present"⟩ =
      (Except.error AttendanceError.duplicate, hrState) :=
  ⟨⟨by unfold fkIntegrity; decide, by unfold attendancePairUnique; decide, by decide⟩,
    create_attendance_duplicate_conflict hrState attA1 "present"
      (by unfold fkIntegrity; decide) (by unfold attendancePairUnique; decide) (by decide)⟩

/-- C2: For every employee id that matches no stored employee row, the
create-attendance (mark) operation fails with the employee-not-found
rejection and leaves the state — in particular the attendance table —
unchanged. -/
theorem create_attendance_unknown_employee (st : HState) (payload : AttendanceCreate)
    (h : ∀ e ∈ st.employees, e.id ≠ payload.employee) :
    create_attendance_route st payload =
      (Except.error AttendanceError.employeeNotFound, st) := by
  have hfind : st.employees.find? (fun e => e.id == payload.employee) = none := by
    rw [List.find?_eq_none]
    intro e he
    simpa using h e he
  simp [create_attendance_route, get_employee_by_id, hfind]

/-- Witness for C2: marking attendance for the non-existent employee id
9999 on the scenario state is rejected and writes nothing. -/
theorem create_attendance_unknown_employee_witness :
    (∀ e ∈ hrState.employees, e.id ≠ (9999 : Int)) ∧
    create_attendance_route hrState ⟨9999, 20240103, "present"⟩ =
      (Except.error AttendanceError.employeeNotFound, hrState) :=
  ⟨by decide,
    create_attendance_unknown_employee hrState ⟨9999, 20240103, "present"⟩ (by decide)⟩

/-- C3: For every pair of distinct employees, if the new payload's
(stripped) employee code equals a stored employee's code, or its email
equals a stored employee's email compared case-insensitively (both sides
lower-cased and trimmed; stored emails are already in normalized form),
then the create-employee route fails with a conflict naming the violated
field and inserts no employee row.  The state is quantified over the
database-enforced employee column constraints. -/
theorem create_employee_duplicate_conflict (st : HState) (raw : EmployeeCreate)
    (e1 : Employee) (hcols : employeeColumnsUnique st) (h1 : e1 ∈ st.employees)
    (hdup : e1.employee_id = pyStrip raw.employee_id ∨
            pyLower (pyStrip raw.email) = pyLower (pyStrip e1.email)) :
    ∃ errs : EmployeeErrors,
      create_employee_route st raw = (CreateEmployeeResult.conflict errs, st) ∧
      (e1.employee_id = pyStrip raw.employee_id → errs.employee_id_taken = true) ∧
      (pyLower (pyStrip raw.email) = pyLower (pyStrip e1.email) →
        errs.email_taken = true) := by
  have hnorm : pyLower (pyStrip e1.email) = e1.email := hcols.2.2 e1 h1
  have hid : e1.employee_id = pyStrip raw.employee_id →
      check_employee_id_exists st (pyStrip raw.employee_id) = true := by
    intro hh
    have hmem : e1 ∈ st.employees.filter
        (fun e => e.employee_id == pyStrip raw.employee_id) :=
      List.mem_filter.mpr ⟨h1, by simp [hh]⟩
    simpa [check_employee_id_exists] using not_isEmpty_of_mem hmem
  have hem : pyLower (pyStrip raw.email) = pyLower (pyStrip e1.email) →
      check_email_exists st (pyLower (pyStrip raw.email)) none = true := by
    intro hh
    have he1 : e1.email = pyLower (pyStrip raw.email) := by rw [hh, hnorm]
    have hmem : e1 ∈ st.employees.filter
        (fun e => e.email == pyLower (pyStrip raw.email)) :=
      List.mem_filter.mpr ⟨h1, by simp [he1]⟩
    simpa [check_email_exists, optIntTruthy] using not_isEmpty_of_mem hmem
  have hor : (check_employee_id_exists st (pyStrip raw.employee_id) ||
      check_email_exists st (pyLower (pyStrip raw.email)) none) = true := by
    rcases hdup with hh | hh
    · simp [hid hh]
    · simp [hem hh]
  refine ⟨{ employee_id_taken := check_employee_id_exists st (pyStrip raw.employee_id)
            email_taken := check_email_exists st (pyLower (pyStrip raw.email)) none },
    ?_, hid, hem⟩
  simp [create_employee_route, validateEmployeeCreate, hor]

/-- Witness for C3: a payload whose stripped code duplicates employee A's
code and whose email duplicates employee A's email up to case is rejected
with both fields flagged, leaving the state unchanged. -/
theorem create_employee_duplicate_conflict_witness :
    (employeeColumnsUnique hrState ∧ empA ∈ hrState.employees ∧
      (empA.employee_id = pyStrip "E100" ∨
        pyLower (pyStrip " ALICE@Example.com ") = pyLower (pyStrip empA.email))) ∧
    (∃ errs : EmployeeErrors,
      create_employee_route hrState ⟨"E100", "Alice Clone", " ALICE@Example.com ", "HR"⟩ =
        (CreateEmployeeResult.conflict errs, hrState) ∧
      (empA.employee_id = pyStrip "E100" → errs.employee_id_taken = true) ∧
      (pyLower (pyStrip " ALICE@Example.com ") = pyLower (pyStrip empA.email) →
        errs.email_taken = true)) :=
  ⟨⟨by unfold employeeColumnsUnique; decide, by decide, by decide⟩,
    create_employee_duplicate_conflict hrState
      ⟨"E100", "Alice Clone", " ALICE@Example.com ", "HR"⟩ empA
      (by unfold employeeColumnsUnique; decide) (by decide) (by decide)⟩

/-- C4: Deleting an existing employee succeeds and removes exactly the
employee rows carrying that primary key (under the primary-key constraint,
the one row) and exactly the attendance rows whose foreign key equals that
employee; every other employee row and every attendance row of a different
employee survives, in its original order. -/
theorem delete_employee_route_cascades (st : HState) (employee_pk : Int)
    (_hpk : employeePKUnique st) (hex : ∃ e ∈ st.employees, e.id = employee_pk) :
    ∃ st', delete_employee_route st employee_pk = (Except.ok (), st') ∧
      st'.employees = st.employees.filter (fun e => e.id != employee_pk) ∧
      st'.attendances = st.attendances.filter (fun a => a.employee_id != employee_pk) ∧
      (∀ e : Employee, e ∈ st'.employees ↔ e ∈ st.employees ∧ e.id ≠ employee_pk) ∧
      (∀ a : Attendance, a ∈ st'.attendances ↔
        a ∈ st.attendances ∧ a.employee_id ≠ employee_pk) := by
  obtain ⟨e, he, heq⟩ := hex
  have hsome : (st.employees.find? (fun f => f.id == employee_pk)).isSome := by
    rw [List.find?_isSome]
    exact ⟨e, he, by simp [heq]⟩
  obtain ⟨emp, hemp⟩ := Option.isSome_iff_exists.mp hsome
  have hempid : emp.id = employee_pk := by simpa using List.find?_some hemp
  refine ⟨delete_employee st emp, ?_, ?_, ?_, ?_, ?_⟩
  · simp [delete_employee_route, get_employee_by_id, hemp]
  · simp [delete_employee, hempid]
  · simp [delete_employee, hempid]
  · intro f
    simp [delete_employee, hempid, List.mem_filter]
  · intro a
    simp [delete_employee, hempid, List.mem_filter]

/-- Witness for C4: deleting employee A from the scenario state removes A
and A's two attendance rows and keeps B and B's row. -/
theorem delete_employee_route_cascades_witness :
    (employeePKUnique hrState ∧ ∃ e ∈ hrState.employees, e.id = (1 : Int)) ∧
    (∃ st', delete_employee_route hrState 1 = (Except.ok (), st') ∧
      st'.employees = hrState.employees.filter (fun e => e.id != (1 : Int)) ∧
      st'.attendances = hrState.attendances.filter (fun a => a.employee_id != (1 : Int)) ∧
      (∀ e : Employee, e ∈ st'.employees ↔ e ∈ hrState.employees ∧ e.id ≠ (1 : Int)) ∧
      (∀ a : Attendance, a ∈ st'.attendances ↔
        a ∈ hrState.attendances ∧ a.employee_id ≠ (1 : Int))) :=
  ⟨⟨by unfold employeePKUnique; decide, ⟨empA, by decide, by decide⟩⟩,
    delete_employee_route_cascades hrState 1
      (by unfold employeePKUnique; decide) ⟨empA, by decide, by decide⟩⟩


/-- The `GET /api/attendance/` handler pairs every returned row with its
eagerly loaded employee (`selectinload(Attendance.employee)` resolves the
`employee` relationship through the foreign key). -/
def list_attendance_route (st : HState) (employee_id : Option Int)
    (filter_date : Option Nat) : List (Attendance × Option Employee) :=
  (get_attendance_list st employee_id filter_date).map
    (fun r => (r, get_employee_by_id st r.employee_id))

/-- Rows returned by `get_attendance_list` come from the attendance table. -/
theorem get_attendance_list_subset (st : HState) (eid : Option Int)
    (d : Option Nat) (r : Attendance) (hr : r ∈ get_attendance_list st eid d) :
    r ∈ st.attendances := by
  cases d <;> cases hb : optIntTruthy eid <;>
    simp [get_attendance_list, hb, mem_sortDescBy, List.mem_filter] at hr <;>
    tauto

/-- Counterexample to C5 as stated: on the scenario state, calling the
attendance list with employee filter `0` returns employee A's 2024-01-01
row (indeed every row), although under the claim every returned record
would have to belong to employee `0`. -/
theorem list_attendance_zero_filter_counterexample :
    attA1 ∈ get_attendance_list hrState (some 0) none ∧
    attA1.employee_id ≠ 0 := by
  decide

/-- C5 (amended): `listAttendance` with no filters returns all
attendance records ordered by date descending; with a *non-zero* employee
filter it returns exactly the records belonging to that employee, both
filters being a conjunction when both are present; an employee filter of
`0` is treated like an absent filter by the truthiness test and returns
every record; and each returned record carries its employee's denormalized
detail (under foreign-key integrity the loaded detail is the owning
employee row). -/
theorem list_attendance_filters (st : HState) (hfk : fkIntegrity st) :
    (List.Perm (get_attendance_list st none none) st.attendances ∧
      dateSortedDesc (get_attendance_list st none none)) ∧
    (∀ eid : Int, eid ≠ 0 →
      List.Perm (get_attendance_list st (some eid) none)
        (st.attendances.filter (fun a => a.employee_id == eid)) ∧
      dateSortedDesc (get_attendance_list st (some eid) none)) ∧
    (∀ (eid : Int) (d : Nat), eid ≠ 0 →
      List.Perm (get_attendance_list st (some eid) (some d))
        (st.attendances.filter (fun a => a.date == d && a.employee_id == eid)) ∧
      dateSortedDesc (get_attendance_list st (some eid) (some d))) ∧
    (∀ d : Option Nat, get_attendance_list st (some 0) d = get_attendance_list st none d) ∧
    (∀ (eid : Option Int) (d : Option Nat),
      ∀ p ∈ list_attendance_route st eid d,
        ∃ e, p.2 = some e ∧ e.id = p.1.employee_id) := by
  refine ⟨⟨?_, ?_⟩, ?_, ?_, ?_, ?_⟩
  · simpa [get_attendance_list, optIntTruthy] using
      sortDescBy_perm (fun a : Attendance => a.date) st.attendances
  · exact sortDescBy_pairwise _ _
  · intro eid hne
    have ht : optIntTruthy (some eid) = true := by simp [optIntTruthy, hne]
    constructor
    · simpa [get_attendance_list, ht] using
        sortDescBy_perm (fun a : Attendance => a.date)
          (st.attendances.filter (fun a => a.employee_id == eid))
    · exact sortDescBy_pairwise _ _
  · intro eid d hne
    have ht : optIntTruthy (some eid) = true := by simp [optIntTruthy, hne]
    constructor
    · have hff := List.filter_filter (p := fun a : Attendance => a.date == d)
        (q := fun a : Attendance => a.employee_id == eid) (l := st.attendances)
      simp only [get_attendance_list, ht, if_true, Option.getD_some]
      rw [hff]
      exact sortDescBy_perm (fun a : Attendance => a.date) _
    · exact sortDescBy_pairwise _ _
  · intro d
    simp [get_attendance_list, optIntTruthy]
  · intro eid d p hp
    obtain ⟨r, hr, rfl⟩ := List.mem_map.mp hp
    obtain ⟨e, he, heq⟩ := hfk r (get_attendance_list_subset st eid d r hr)
    have hsome : (st.employees.find? (fun f => f.id == r.employee_id)).isSome := by
      rw [List.find?_isSome]
      exact ⟨e, he, by simp [heq]⟩
    obtain ⟨emp, hemp⟩ := Option.isSome_iff_exists.mp hsome
    have hid : emp.id = r.employee_id := by simpa using List.find?_some hemp
    exact ⟨emp, by simpa [get_employee_by_id] using hemp, hid⟩

/-- Witness for the amended C5 at the scenario state. -/
theorem list_attendance_filters_witness :
    fkIntegrity hrState ∧
    ((List.Perm (get_attendance_list hrState none none) hrState.attendances ∧
      dateSortedDesc (get_attendance_list hrState none none)) ∧
    (∀ eid : Int, eid ≠ 0 →
      List.Perm (get_attendance_list hrState (some eid) none)
        (hrState.attendances.filter (fun a => a.employee_id == eid)) ∧
      dateSortedDesc (get_attendance_list hrState (some eid) none)) ∧
    (∀ (eid : Int) (d : Nat), eid ≠ 0 →
      List.Perm (get_attendance_list hrState (some eid) (some d))
        (hrState.attendances.filter (fun a => a.date == d && a.employee_id == eid)) ∧
      dateSortedDesc (get_attendance_list hrState (some eid) (some d))) ∧
    (∀ d : Option Nat,
      get_attendance_list hrState (some 0) d = get_attendance_list hrState none d) ∧
    (∀ (eid : Option Int) (d : Option Nat),
      ∀ p ∈ list_attendance_route hrState eid d,
        ∃ e, p.2 = some e ∧ e.id = p.1.employee_id)) :=
  ⟨by unfold fkIntegrity; decide,
    list_attendance_filters hrState (by unfold fkIntegrity; decide)⟩

/-- A non-empty list in the `Bool` sense has a member. -/
theorem not_isEmpty_iff_exists_mem {α : Type} (l : List α) :
    (!l.isEmpty) = true ↔ ∃ x, x ∈ l := by
  cases l <;> simp

/-- C6: `listByEmployee` returns exactly the given employee's attendance
records whose date lies within the optional inclusive bounds, ordered
newest date first; in particular, on the scenario state, the range
2024-01-02..2024-01-02 for employee A returns exactly the absent record of
2024-01-02 and nothing from 2024-01-01. -/
theorem get_attendance_by_employee_range (st : HState) (employee_pk : Int)
    (date_from date_to : Option Nat) :
    (∀ a : Attendance, a ∈ get_attendance_by_employee st employee_pk date_from date_to ↔
      (a ∈ st.attendances ∧ a.employee_id = employee_pk ∧
        (∀ d, date_from = some d → d ≤ a.date) ∧
        (∀ d, date_to = some d → a.date ≤ d))) ∧
    dateSortedDesc (get_attendance_by_employee st employee_pk date_from date_to) ∧
    get_attendance_by_employee hrState 1 (some 20240102) (some 20240102) = [attA2] := by
  refine ⟨?_, sortDescBy_pairwise _ _, by decide⟩
  intro a
  cases date_from <;> cases date_to <;>
    simp [get_attendance_by_employee, mem_sortDescBy, List.mem_filter, and_assoc] <;>
    intro _ <;> constructor <;> intro h <;> tauto

/-- C10: A `0` value for the optional employee filter fails the Python
truthiness test, so the attendance list applies no employee filter at all —
returning every record instead of the records of an employee with id 0 —
and a `0` `exclude_pk` in the duplicate check excludes nothing. -/
theorem zero_filter_truthiness (st : HState) (d : Option Nat)
    (emp_id : Int) (att_date : Nat) :
    get_attendance_list st (some 0) d = get_attendance_list st none d ∧
    (∀ a : Attendance, a ∈ get_attendance_list st (some 0) none ↔ a ∈ st.attendances) ∧
    check_attendance_exists st emp_id att_date (some 0) =
      check_attendance_exists st emp_id att_date none := by
  refine ⟨?_, ?_, ?_⟩
  · simp [get_attendance_list, optIntTruthy]
  · intro a
    simp [get_attendance_list, optIntTruthy, mem_sortDescBy]
  · simp [check_attendance_exists, optIntTruthy]

/-- C7: The summary's `present_days_by_employee` contains one entry per
employee id having at least one present-status attendance row (keys are
duplicate-free and every present row's employee appears); every entry's
count is positive and equals that employee's number of present-status
rows; and the sequence is sorted by count descending. -/
theorem summary_present_days_by_employee (st : HState) (today : Nat) :
    ((get_attendance_summary st today).present_days_by_employee.map
        PresentDays.employee_id).Nodup ∧
    (∀ p ∈ (get_attendance_summary st today).present_days_by_employee,
      0 < p.present_days ∧
      p.present_days = (st.attendances.filter
        (fun a => a.employee_id == p.employee_id && a.status == "present")).length) ∧
    (∀ a ∈ st.attendances, a.status = "present" →
      ∃ p ∈ (get_attendance_summary st today).present_days_by_employee,
        p.employee_id = a.employee_id) ∧
    List.Pairwise (fun p q => q.present_days ≤ p.present_days)
      (get_attendance_summary st today).present_days_by_employee := by
  have hlist : (get_attendance_summary st today).present_days_by_employee =
      sortDescBy (fun p : PresentDays => p.present_days)
        (((st.attendances.filter (fun a => a.status == "present")).map
            (fun a => a.employee_id)).dedup.map (fun k =>
          PresentDays.mk k
            (((st.attendances.filter (fun a => a.status == "present")).filter
              (fun a => a.employee_id == k)).length))) := rfl
  have hperm := sortDescBy_perm (fun p : PresentDays => p.present_days)
    (((st.attendances.filter (fun a => a.status == "present")).map
        (fun a => a.employee_id)).dedup.map (fun k =>
      PresentDays.mk k
        (((st.attendances.filter (fun a => a.status == "present")).filter
          (fun a => a.employee_id == k)).length)))
  refine ⟨?_, ?_, ?_, ?_⟩
  · rw [hlist]
    refine ((hperm.map PresentDays.employee_id).nodup_iff).mpr ?_
    rw [List.map_map]
    simpa [Function.comp_def] using
      List.nodup_dedup ((st.attendances.filter
        (fun a => a.status == "present")).map (fun a => a.employee_id))
  · intro p hp
    rw [hlist] at hp
    have hp' := hperm.mem_iff.mp hp
    obtain ⟨k, hk, rfl⟩ := List.mem_map.mp hp'
    obtain ⟨a, ha, hak⟩ := List.mem_map.mp (List.mem_dedup.mp hk)
    constructor
    · exact List.length_pos_of_mem
        (List.mem_filter.mpr ⟨ha, by simp [hak]⟩)
    · show _ = (st.attendances.filter
        (fun a => a.employee_id == k && a.status == "present")).length
      rw [← List.filter_filter]
  · intro a ha hstatus
    have hpres : a ∈ st.attendances.filter (fun b => b.status == "present") :=
      List.mem_filter.mpr ⟨ha, by simp [hstatus]⟩
    have hkey : a.employee_id ∈
        ((st.attendances.filter (fun b => b.status == "present")).map
          (fun b => b.employee_id)).dedup :=
      List.mem_dedup.mpr (List.mem_map.mpr ⟨a, hpres, rfl⟩)
    refine ⟨PresentDays.mk a.employee_id
      (((st.attendances.filter (fun b => b.status == "present")).filter
        (fun b => b.employee_id == a.employee_id)).length), ?_, rfl⟩
    rw [hlist]
    exact hperm.mem_iff.mpr (List.mem_map.mpr ⟨a.employee_id, hkey, rfl⟩)
  · rw [hlist]
    exact sortDescBy_pairwise _ _

/-- C8: The summary's `total_employees` is the number of employee rows,
`present_today` / `absent_today` count the attendance rows dated `today`
with the matching status; and on the scenario data with today fixed to
2024-01-01 the summary is `totalEmployees=2, presentToday=2, absentToday=0`
with both per-employee present-day entries carrying count 1. -/
theorem summary_counts (st : HState) (today : Nat) :
    ((get_attendance_summary st today).total_employees = st.employees.length ∧
      (get_attendance_summary st today).present_today =
        st.attendances.countP (fun a => a.date == today && a.status == "present") ∧
      (get_attendance_summary st today).absent_today =
        st.attendances.countP (fun a => a.date == today && a.status == "absent")) ∧
    ((get_attendance_summary hrState 20240101).total_employees = 2 ∧
      (get_attendance_summary hrState 20240101).present_today = 2 ∧
      (get_attendance_summary hrState 20240101).absent_today = 0 ∧
      (get_attendance_summary hrState 20240101).present_days_by_employee.length = 2 ∧
      PresentDays.mk 1 1 ∈
        (get_attendance_summary hrState 20240101).present_days_by_employee ∧
      PresentDays.mk 2 1 ∈
        (get_attendance_summary hrState 20240101).present_days_by_employee) := by
  refine ⟨⟨rfl, ?_, ?_⟩, by decide⟩
  · rw [List.countP_eq_length_filter]
    rfl
  · rw [List.countP_eq_length_filter]
    rfl

/-- An attendance row whose primary key is `0` — a legal row value, and the
input on which the truthiness test in `check_attendance_exists` diverges
from the specified excludePk semantics. -/
def attZero : Attendance := { id := 0, employee_id := 1, date := 20240101, status := "present" }

/-- A state holding only employee A and the pk-0 attendance row. -/
def zeroPkState : HState :=
  { employees := [empA], attendances := [attZero]
    next_employee_pk := 2, next_attendance_pk := 1 }

/-- Counterexample to C9 as stated: with `exclude_pk = 0` and the only
matching row carrying primary key 0, the code returns `true` although no
matching row has a primary key different from the supplied excludePk —
`if exclude_pk:` is false for `0`, so the exclusion is silently skipped. -/
theorem check_attendance_exists_exclude_counterexample :
    check_attendance_exists zeroPkState 1 20240101 (some 0) = true ∧
    ¬ ∃ a ∈ zeroPkState.attendances,
        a.employee_id = 1 ∧ a.date = 20240101 ∧ a.id ≠ (0 : Int) := by
  decide

/-- C9 (amended): `attendanceExists` returns true iff some attendance
row with the given (employee, date) pair exists whose primary key differs
from `exclude_pk` whenever `exclude_pk` is supplied *and non-zero*; a
supplied `exclude_pk` of `0` excludes nothing.  Quantified over states
satisfying the (employee, date) unique constraint, under which the
embedded existence test agrees with `scalar_one_or_none`. -/
theorem check_attendance_exists_spec (st : HState) (emp_id : Int) (att_date : Nat)
    (exclude_pk : Option Int) (_hpair : attendancePairUnique st) :
    check_attendance_exists st emp_id att_date exclude_pk = true ↔
      ∃ a ∈ st.attendances, a.employee_id = emp_id ∧ a.date = att_date ∧
        (∀ pk, exclude_pk = some pk → pk ≠ 0 → a.id ≠ pk) := by
  rcases exclude_pk with _ | pk
  · simp [check_attendance_exists, optIntTruthy, not_isEmpty_iff_exists_mem,
      List.mem_filter, and_assoc]
  · by_cases hz : pk = 0
    · subst hz
      simp [check_attendance_exists, optIntTruthy, not_isEmpty_iff_exists_mem,
        List.mem_filter, and_assoc]
    · have ht : optIntTruthy (some pk) = true := by simp [optIntTruthy, hz]
      simp only [check_attendance_exists, ht, if_true, Option.getD_some]
      rw [not_isEmpty_iff_exists_mem]
      constructor
      · rintro ⟨a, ha⟩
        have h1 := List.mem_filter.mp ha
        have h2 := List.mem_filter.mp h1.1
        have hcond := h2.2
        have hid := h1.2
        simp only [Bool.and_eq_true, beq_iff_eq] at hcond
        simp only [bne_iff_ne, ne_eq] at hid
        refine ⟨a, h2.1, hcond.1, hcond.2, ?_⟩
        intro pk' hpk' _
        obtain rfl : pk = pk' := by injection hpk'
        exact hid
      · rintro ⟨a, ha, hemp, hdate, hexc⟩
        refine ⟨a, List.mem_filter.mpr ⟨List.mem_filter.mpr ⟨ha, ?_⟩, ?_⟩⟩
        · simp [hemp, hdate]
        · simpa using hexc pk rfl hz

/-- Witness for the amended C9: on the scenario state, with a supplied
non-zero `exclude_pk` of 5, the check for (employee 1, 2024-01-01) is true
and a matching row with pk ≠ 5 indeed exists. -/
theorem check_attendance_exists_spec_witness :
    attendancePairUnique hrState ∧
    (check_attendance_exists hrState 1 20240101 (some 5) = true ↔
      ∃ a ∈ hrState.attendances, a.employee_id = 1 ∧ a.date = 20240101 ∧
        (∀ pk, (some 5 : Option Int) = some pk → pk ≠ 0 → a.id ≠ pk)) :=
  ⟨by unfold attendancePairUnique; decide,
    check_attendance_exists_spec hrState 1 20240101 (some 5)
      (by unfold attendancePairUnique; decide)⟩
